import Mathlib

/-!
Shallow embedding of the query-translation and streaming-session layer of the
PRTG data-source plugin (src/src/datasource.ts and src/src/api.ts), together
with theorems settling the frozen claims about it.

JavaScript machine numbers are modelled as exact rationals (the thresholds and
sample values of interest are exactly representable); the host-dependent parts
of the JS runtime — `new Date(x).getTime()` and `parseFloat` — are modelled as
an explicit environment of optional-valued functions, with `none` for `NaN`.
-/

namespace PrtgSpec

/-- A JavaScript value as it occurs in the decoded history rows: a number,
a string, or `undefined`. -/
inductive JsVal where
  | num (q : ℚ)
  | str (s : String)
  | undef
deriving DecidableEq

/-- JS truthiness of a value (`0`, `""` and `undefined` are falsy). -/
def truthy : JsVal → Bool
  | .num q => decide (q ≠ 0)
  | .str s => decide (s ≠ "")
  | .undef => false

/-- JS truthiness of a possibly-absent value (absent/`undefined` is falsy). -/
def truthyOpt : Option JsVal → Bool
  | some v => truthy v
  | none => false

/-- JS truthiness of an optional boolean field such as `isStreaming`. -/
def obTruthy : Option Bool → Bool
  | some b => b
  | none => false

/-- Host-runtime environment: `dateMs v` models `new Date(v).getTime()`
(`none` = invalid date / `NaN`), `parseFloatQ s` models `parseFloat(s)`
(`none` = `NaN`). -/
structure JsEnv where
  dateMs : JsVal → Option Int
  parseFloatQ : String → Option ℚ

/-- Models `typeof value === 'number' ? value : parseFloat(value as string) || 0`
(datasource.ts line 165): numbers pass through, strings are float-parsed with
`NaN` (and `0`) collapsing to `0`, anything else coerces to `0`. -/
def coerceNum (env : JsEnv) : JsVal → ℚ
  | .num q => q
  | .str s => (env.parseFloatQ s).getD 0
  | .undef => 0

/-- One raw history row: the ordered `Object.entries` of the decoded record. -/
abbrev Row := List (String × JsVal)

/-- JS property access on a row (first binding wins; object keys are unique). -/
def rlookup : Row → String → Option JsVal
  | [], _ => none
  | (k, v) :: rest, key => if k = key then some v else rlookup rest key

/-- The key list of a row, in entry order. -/
def rowKeys (r : Row) : List String := r.map Prod.fst

/-- The `queryType` enum from src/src/types.ts. -/
inductive QueryType where
  | metrics
  | raw
  | text
  | manual
deriving DecidableEq

/-- The fields of `MyQuery` (src/src/types.ts) that the embedded layer reads.
Optional JS fields are `Option`-typed. -/
structure Query where
  queryType : QueryType
  refId : String
  group : String
  device : String
  sensor : String
  sensorId : String
  channel : String
  channelArray : Option (List String)
  includeGroupName : Option Bool
  includeDeviceName : Option Bool
  includeSensorName : Option Bool
  isStreaming : Option Bool
  panelId : Option String
deriving DecidableEq

/-! ## Query dispatcher (datasource.ts lines 62-67) -/

/-- Predicate of the streaming filter:
`query.isStreaming && query.queryType === QueryType.Metrics`. -/
def isStreamingMetrics (q : Query) : Bool :=
  obTruthy q.isStreaming && decide (q.queryType = QueryType.metrics)

/-- Predicate of the regular filter:
`!query.isStreaming || query.queryType !== QueryType.Metrics`. -/
def isRegularTarget (q : Query) : Bool :=
  !obTruthy q.isStreaming || !decide (q.queryType = QueryType.metrics)

/-- Models `options.targets.filter(q => q.isStreaming && q.queryType === Metrics)`. -/
def streamingTargets (ts : List Query) : List Query :=
  ts.filter isStreamingMetrics

/-- Models `options.targets.filter(q => !q.isStreaming || q.queryType !== Metrics)`. -/
def regularTargets (ts : List Query) : List Query :=
  ts.filter isRegularTarget

/-! ## Resolution selector: the two duplicated avg computations -/

/-- The avg bucket chain inside `PrtgApi.getSensorHistory`
(src/src/api.ts lines 101-116). -/
def sensorHistoryAvg (hours : ℚ) : String :=
  if hours > 720 then "86400"
  else if hours > 336 then "3600"
  else if hours > 168 then "1800"
  else if hours > 72 then "900"
  else if hours > 48 then "600"
  else if hours > 24 then "300"
  else if hours > 12 then "120"
  else "0"

/-- The avg bucket chain inside `DataSource.getAnnotations`
(src/src/datasource.ts lines 306-321). -/
def annotAvg (hours : ℚ) : String :=
  if hours > 720 then "86400"
  else if hours > 336 then "3600"
  else if hours > 168 then "1800"
  else if hours > 72 then "900"
  else if hours > 48 then "600"
  else if hours > 24 then "300"
  else if hours > 12 then "120"
  else "0"

/-! ## Response normalizer (datasource.ts lines 148-192) -/

/-- Accumulated normalization state: the shared `times` axis (`none` = `NaN`
from an invalid date) and the per-channel value sequences, as an association
list in first-appearance order (mirrors `times`, `values`, `channelLabels`;
`channelLabels[key] = key` is the identity and is not carried separately). -/
structure NormState where
  times : List (Option Int)
  values : List (String × List ℚ)
deriving DecidableEq

/-- Models `if (!values[key]) values[key] = [] ; values[key].push(v)`:
append `q` to the sequence of `k`, creating it on first appearance. -/
def pushVal (vals : List (String × List ℚ)) (k : String) (q : ℚ) :
    List (String × List ℚ) :=
  if vals.any (fun p => p.1 = k) then
    vals.map (fun p => if p.1 = k then (p.1, p.2 ++ [q]) else p)
  else vals ++ [(k, [q])]

/-- The inner `Object.entries(item).forEach` loop: every entry except the
`datetime` key pushes its coerced value onto the channel's sequence. -/
def valsFold (env : JsEnv) : Row → List (String × List ℚ) → List (String × List ℚ)
  | [], vals => vals
  | (k, v) :: rest, vals =>
      valsFold env rest
        (if k = "datetime" then vals else pushVal vals k (coerceNum env v))

/-- One iteration of `histDataArray.forEach`: rows with a truthy `datetime`
push `new Date(datetime).getTime()` onto the axis and fold their entries into
the channel sequences; rows with a falsy or absent `datetime` leave the state
unchanged. -/
def rowStep (env : JsEnv) (st : NormState) (item : Row) : NormState :=
  match rlookup item "datetime" with
  | some dv =>
      if truthy dv then
        { times := st.times ++ [env.dateMs dv],
          values := valsFold env item st.values }
      else st
  | none => st

/-- The whole normalization loop over the returned rows. -/
def normalize (env : JsEnv) (rows : List Row) : NormState :=
  rows.foldl (rowStep env) ⟨[], []⟩

/-- The time a row contributes when kept: `new Date(item.datetime).getTime()`. -/
def timeOf (env : JsEnv) (r : Row) : Option Int :=
  match rlookup r "datetime" with
  | some v => env.dateMs v
  | none => none

/-- The coerced value a row contributes to channel `k`. -/
def valueAt (env : JsEnv) (r : Row) (k : String) : ℚ :=
  coerceNum env ((rlookup r k).getD JsVal.undef)

/-- The (zero- or one-element) suffix an entry list appends to channel `k`
when folded: the coerced value of `k`'s entry unless `k` is the `datetime`
key or absent. Used to characterize `valsFold`. -/
def entryApp (env : JsEnv) (e : Row) (k : String) : List ℚ :=
  match rlookup e k with
  | some v => if k = "datetime" then [] else [coerceNum env v]
  | none => []

/-! ## Frame construction and the regular path (datasource.ts lines 128-213) -/

/-- The display-name lead built from the includeX flags
(datasource.ts lines 176-182): the selected truthy labels joined with
" - ", with a trailing " - " when nonempty. -/
def nameLead (t : Query) : String :=
  let ps : List String :=
    (if obTruthy t.includeGroupName ∧ t.group ≠ "" then [t.group] else []) ++
    (if obTruthy t.includeDeviceName ∧ t.device ≠ "" then [t.device] else []) ++
    (if obTruthy t.includeSensorName ∧ t.sensor ≠ "" then [t.sensor] else [])
  if 0 < ps.length then String.intercalate " - " ps ++ " - " else ""

/-- One produced data frame: refId, display name, the shared Time field and
the channel's Value field. -/
structure Frame where
  refId : String
  name : String
  times : List (Option Int)
  vals : List ℚ
deriving DecidableEq

/-- Models `Object.keys(values).map(channel => ...)`: one frame per accumulated
channel, all sharing the `times` axis. -/
def buildFrames (t : Query) (st : NormState) : List Frame :=
  st.values.map
    (fun p => { refId := t.refId, name := nameLead t ++ p.1,
                times := st.times, vals := p.2 })

/-- The per-target result `{ refId, data }` of the regular path. -/
structure RefResult where
  refId : String
  data : List Frame
deriving DecidableEq

/-- One target of the regular path (the async closure of
`regularTargets.map`, lines 128-203): metrics targets with a truthy sensorId
fetch history — a rejection is caught and becomes `{ refId, data: [] }` —
and everything else resolves to `{ refId, data: [] }`. -/
def resolveOne (env : JsEnv) (fetch : Query → Except String (List Row))
    (t : Query) : RefResult :=
  if t.queryType = QueryType.metrics ∧ t.sensorId ≠ "" then
    match fetch t with
    | .ok histData =>
        if histData.length = 0 then ⟨t.refId, []⟩
        else ⟨t.refId, buildFrames t (normalize env histData)⟩
    | .error _ => ⟨t.refId, []⟩
  else ⟨t.refId, []⟩

/-- Models `Promise.all(regularTargets.map(...))`: the independent per-target
resolutions, in order. -/
def regularResults (env : JsEnv) (fetch : Query → Except String (List Row))
    (ts : List Query) : List RefResult :=
  ts.map (resolveOne env fetch)

/-! ## Stream identifier (datasource.ts lines 220-228) -/

/-- JS `s || d` on strings. -/
def jsOr (s d : String) : String := if s = "" then d else s

/-- JS `o || d` on an optional string. -/
def jsOrOpt (o : Option String) (d : String) : String :=
  match o with
  | some s => jsOr s d
  | none => d

/-- The `components` array of `getStreamId`. -/
def streamComponents (q : Query) : List String :=
  [jsOrOpt q.panelId "default",
   jsOr q.refId "A",
   jsOr q.sensorId "",
   match q.channelArray with
   | some arr => String.intercalate "-" arr
   | none => jsOr q.channel ""]

/-- Models `components.filter(Boolean).join('_')`. -/
def getStreamId (q : Query) : String :=
  String.intercalate "_" ((streamComponents q).filter (fun s => decide (s ≠ "")))

/-! ## Streaming frame tagging (datasource.ts lines 100-114) -/

/-- The metadata object of a live frame; the three tagged keys are explicit
and `rest` stands for every other property carried through the spread. -/
structure StreamMeta where
  streaming : Option Bool
  streamId : Option String
  preferredVisualisationType : Option String
  rest : List (String × String)
deriving DecidableEq

/-- A frame of a streaming response; `none` at the outer level is a null
frame in the array. -/
structure LiveFrame where
  meta : Option StreamMeta
  rest : List (String × String)
deriving DecidableEq

/-- The `frameData.forEach` body: only a non-null frame that already carries
a (truthy) `meta` object gets the streaming tags spliced in. -/
def tagFrame (sid : String) : Option LiveFrame → Option LiveFrame
  | none => none
  | some fr =>
      match fr.meta with
      | none => some fr
      | some m =>
          some { fr with
                 meta := some { m with
                                streaming := some true,
                                streamId := some sid,
                                preferredVisualisationType := some "graph" } }

/-- The `map` stage of the stream pipe: `response.data || []` with every
frame passed through the tagging body, returned as the forwarded `data`. -/
def tagStreamData (sid : String) (respData : Option (List (Option LiveFrame))) :
    List (Option LiveFrame) :=
  (respData.getD []).map (tagFrame sid)

/-! ## History-body field extraction (api.ts lines 128-129) -/

/-- A possibly-absent JSON field that is an array when present
(per the history endpoint's contract, §6 of the interface description). -/
inductive JField where
  | arr (rows : List Row)
  | jnull
  | absent
deriving DecidableEq

/-- JS truthiness of such a field: a present array (even empty) is truthy. -/
def fieldTruthy : JField → Bool
  | .arr _ => true
  | _ => false

/-- The decoded body of `historicdata.json`. -/
structure HistBody where
  channels : JField
  histdata : JField
deriving DecidableEq

/-- Models `return response.channels || response.histdata || []`. -/
def extractHistRows (b : HistBody) : List Row :=
  match b.channels with
  | .arr r => r
  | _ =>
      match b.histdata with
      | .arr r => r
      | _ => []

/-! ## Concrete inputs used by witnesses and counterexamples -/

/-- A concrete runtime environment: two parsable datetimes and nothing else. -/
def envC : JsEnv where
  dateMs := fun v =>
    match v with
    | .str "t1" => some 1
    | .str "t2" => some 2
    | _ => none
  parseFloatQ := fun _ => none

/-- Two rows with heterogeneous key sets: `ch2` only occurs in the second. -/
def rowsHet : List Row :=
  [[("datetime", JsVal.str "t1"), ("ch1", JsVal.num 1)],
   [("datetime", JsVal.str "t2"), ("ch1", JsVal.num 2), ("ch2", JsVal.num 3)]]

/-- Two rows sharing an identical key list. -/
def rowsHom : List Row :=
  [[("datetime", JsVal.str "t1"), ("ch1", JsVal.num 1)],
   [("datetime", JsVal.str "t2"), ("ch1", JsVal.num 2)]]

/-- A row whose datetime is truthy but unparsable in `envC`. -/
def rowBad : Row := [("datetime", JsVal.str "garbage"), ("ch1", JsVal.num 5)]

/-- A row with no datetime key at all. -/
def rowNoDt : Row := [("ch1", JsVal.num 7)]

/-- A well-formed row usable around a skipped row. -/
def rowT1 : Row := [("datetime", JsVal.str "t1"), ("ch1", JsVal.num 1)]

/-- A second well-formed row. -/
def rowT2 : Row := [("datetime", JsVal.str "t2"), ("ch1", JsVal.num 2)]

/-- A base query with every optional field empty. -/
def qBase : Query where
  queryType := QueryType.metrics
  refId := "A"
  group := ""
  device := ""
  sensor := ""
  sensorId := ""
  channel := ""
  channelArray := none
  includeGroupName := none
  includeDeviceName := none
  includeSensorName := none
  isStreaming := none
  panelId := none

/-- A Raw-typed query with `isStreaming = true` (the dispatcher edge case). -/
def qRawStream : Query := { qBase with queryType := QueryType.raw, isStreaming := some true }

/-- A metrics query against sensor 7, refId A. -/
def qA : Query := { qBase with refId := "A", sensorId := "7" }

/-- A metrics query against sensor 7, refId B. -/
def qB : Query := { qBase with refId := "B", sensorId := "7" }

/-- A fetch stub that rejects for refId A and resolves for everything else. -/
def fetchW (q : Query) : Except String (List Row) :=
  if q.refId = "A" then .error "boom" else .ok [rowT1]

/-- The stream-id example query of the testable-properties section. -/
def qW1 : Query :=
  { qBase with panelId := some "1", refId := "A", sensorId := "42",
               channelArray := some ["ch1"] }

/-- The same derivation inputs with an unrelated field changed. -/
def qW2 : Query := { qW1 with group := "other" }

/-- The same query with `panelId` left undefined. -/
def qWnone : Query := { qW1 with panelId := none }

/-- A live frame carrying no `meta` object. -/
def frameNoMeta : LiveFrame := ⟨none, [("payload", "1")]⟩

/-- A live frame with an existing `meta` object. -/
def frameWithMeta : LiveFrame :=
  ⟨some ⟨some false, none, none, [("k", "v")]⟩, [("payload", "2")]⟩

/-! # Theorems -/

/-! ## Association-list and row lemmas for the normalizer -/

theorem rlookup_cons (k key : String) (v : JsVal) (r : Row) :
    rlookup ((k, v) :: r) key = if k = key then some v else rlookup r key :=
  rfl

theorem rlookup_cons_self (k : String) (v : JsVal) (r : Row) :
    rlookup ((k, v) :: r) k = some v := by
  simp [rlookup_cons]

theorem rlookup_cons_ne (k key : String) (v : JsVal) (r : Row) (h : k ≠ key) :
    rlookup ((k, v) :: r) key = rlookup r key := by
  simp [rlookup_cons, h]

theorem rlookup_eq_none (r : Row) (key : String) (h : key ∉ rowKeys r) :
    rlookup r key = none := by
  induction r with
  | nil => rfl
  | cons kv rest ih =>
      obtain ⟨k, v⟩ := kv
      have h1 : ¬(key = k ∨ key ∈ rowKeys rest) := by
        simpa [rowKeys] using h
      push_neg at h1
      rw [rlookup_cons, if_neg (fun hc : k = key => h1.1 hc.symm), ih h1.2]

theorem rlookup_mem (r : Row) (key : String) (h : key ∈ rowKeys r) :
    ∃ v, rlookup r key = some v := by
  induction r with
  | nil => simp [rowKeys] at h
  | cons kv rest ih =>
      obtain ⟨k, v⟩ := kv
      by_cases hk : k = key
      · exact ⟨v, by rw [rlookup_cons, if_pos hk]⟩
      · have h2 : key ∈ rowKeys rest := by
          rcases (by simpa [rowKeys] using h : key = k ∨ key ∈ rowKeys rest) with h' | h'
          · exact absurd h'.symm hk
          · exact h'
        obtain ⟨w, hw⟩ := ih h2
        exact ⟨w, by rw [rlookup_cons, if_neg hk, hw]⟩

theorem entryApp_dt (env : JsEnv) (e : Row) :
    entryApp env e "datetime" = [] := by
  cases h : rlookup e "datetime" <;> simp [entryApp, h]

theorem entryApp_cons_ne (env : JsEnv) (k key : String) (v : JsVal) (e : Row)
    (h : k ≠ key) :
    entryApp env ((k, v) :: e) key = entryApp env e key := by
  simp [entryApp, rlookup_cons_ne k key v e h]

theorem entryApp_cons_self (env : JsEnv) (k : String) (v : JsVal) (e : Row)
    (h : k ≠ "datetime") :
    entryApp env ((k, v) :: e) k = [coerceNum env v] := by
  simp [entryApp, rlookup_cons_self, h]

theorem entryApp_not_mem (env : JsEnv) (e : Row) (key : String)
    (h : key ∉ rowKeys e) :
    entryApp env e key = [] := by
  simp [entryApp, rlookup_eq_none e key h]

theorem pushVal_map_mem (F : List String) (g : String → List ℚ) (k : String)
    (q : ℚ) (hk : k ∈ F) :
    pushVal (F.map (fun x => (x, g x))) k q =
      F.map (fun x => (x, if x = k then g x ++ [q] else g x)) := by
  unfold pushVal
  rw [if_pos]
  · rw [List.map_map]
    apply List.map_congr_left
    intro x hx
    by_cases hxk : x = k <;> simp [hxk]
  · rw [List.any_eq_true]
    exact ⟨(k, g k), List.mem_map.mpr ⟨k, hk, rfl⟩, by simp⟩

theorem pushVal_map_not_mem (F : List String) (g : String → List ℚ) (k : String)
    (q : ℚ) (hk : k ∉ F) :
    pushVal (F.map (fun x => (x, g x))) k q =
      F.map (fun x => (x, g x)) ++ [(k, [q])] := by
  have h' : (F.map (fun x => (x, g x))).any (fun p => decide (p.1 = k)) = false := by
    rw [List.any_eq_false]
    intro p hp
    simp only [List.mem_map] at hp
    obtain ⟨x, hx, rfl⟩ := hp
    simp only [decide_eq_true_eq]
    intro hc
    exact hk (hc ▸ hx)
  unfold pushVal
  rw [h']
  simp

/-- Full characterization of the entries loop started from an association
list presented as a map over a duplicate-free key list `F`: every key of the
row that is not the `datetime` key and not yet present is appended in entry
order, and every key receives the (zero- or one-sample) suffix `entryApp`. -/
theorem valsFold_map (env : JsEnv) :
    ∀ (e : Row) (F : List String) (g : String → List ℚ),
      F.Nodup → (rowKeys e).Nodup →
      valsFold env e (F.map (fun x => (x, g x))) =
        (F ++ (rowKeys e).filter
            (fun k => decide (k ≠ "datetime") && decide (k ∉ F))).map
          (fun x => (x, (if x ∈ F then g x else []) ++ entryApp env e x)) := by
  intro e
  induction e with
  | nil =>
      intro F g hF _
      simp only [valsFold, rowKeys, List.map_nil, List.filter_nil,
                 List.append_nil]
      apply List.map_congr_left
      intro x hx
      simp [hx, entryApp, rlookup]
  | cons kv e ih =>
      obtain ⟨k, v⟩ := kv
      intro F g hF he
      have hknd : k ∉ rowKeys e ∧ (rowKeys e).Nodup := by
        simpa [rowKeys] using he
      by_cases hkdt : k = "datetime"
      · subst hkdt
        rw [valsFold, if_pos rfl, ih F g hF hknd.2]
        have hfe : (rowKeys (("datetime", v) :: e)).filter
              (fun x => decide (x ≠ "datetime") && decide (x ∉ F)) =
            (rowKeys e).filter
              (fun x => decide (x ≠ "datetime") && decide (x ∉ F)) := by
          simp [rowKeys]
        rw [hfe]
        apply List.map_congr_left
        intro x hx
        by_cases hxdt : x = "datetime"
        · subst hxdt
          rw [entryApp_dt, entryApp_dt]
        · rw [entryApp_cons_ne env "datetime" x v e (Ne.symm hxdt)]
      · by_cases hkF : k ∈ F
        · rw [valsFold, if_neg hkdt, pushVal_map_mem F g k (coerceNum env v) hkF,
              ih F (fun x => if x = k then g x ++ [coerceNum env v] else g x) hF hknd.2]
          have hfe : (rowKeys ((k, v) :: e)).filter
                (fun x => decide (x ≠ "datetime") && decide (x ∉ F)) =
              (rowKeys e).filter
                (fun x => decide (x ≠ "datetime") && decide (x ∉ F)) := by
            simp [rowKeys, hkF]
          rw [hfe]
          apply List.map_congr_left
          intro x hx
          by_cases hxk : x = k
          · subst hxk
            rw [if_pos hkF, if_pos rfl, if_pos hkF,
                entryApp_not_mem env e x hknd.1,
                entryApp_cons_self env x v e hkdt]
            simp
          · rw [entryApp_cons_ne env k x v e (Ne.symm hxk)]
            simp only [if_neg hxk]
        · rw [valsFold, if_neg hkdt,
              pushVal_map_not_mem F g k (coerceNum env v) hkF]
          have hsplit : F.map (fun x => (x, g x)) ++ [(k, [coerceNum env v])] =
              (F ++ [k]).map
                (fun x => (x, if x = k then [coerceNum env v] else g x)) := by
            rw [List.map_append]
            congr 1
            · apply List.map_congr_left
              intro x hx
              rw [if_neg (fun hc : x = k => hkF (hc ▸ hx))]
            · simp
          rw [hsplit, ih (F ++ [k])
                (fun x => if x = k then [coerceNum env v] else g x)
                (by simp [List.nodup_append, hF, hkF]) hknd.2]
          have hfe : (F ++ [k]) ++ (rowKeys e).filter
                (fun x => decide (x ≠ "datetime") && decide (x ∉ F ++ [k])) =
              F ++ (rowKeys ((k, v) :: e)).filter
                (fun x => decide (x ≠ "datetime") && decide (x ∉ F)) := by
            have hcgr : (rowKeys e).filter
                  (fun x => decide (x ≠ "datetime") && decide (x ∉ F ++ [k])) =
                (rowKeys e).filter
                  (fun x => decide (x ≠ "datetime") && decide (x ∉ F)) := by
              apply List.filter_congr
              intro x hx
              have hxk : x ≠ k := fun hc => hknd.1 (hc ▸ hx)
              simp [hxk]
            rw [hcgr]
            simp [rowKeys, hkdt, hkF, List.append_assoc]
          rw [hfe]
          apply List.map_congr_left
          intro x hx
          by_cases hxk : x = k
          · subst hxk
            rw [if_pos (by simp), if_pos rfl,
                entryApp_not_mem env e x hknd.1,
                entryApp_cons_self env x v e hkdt]
            simp [hkF]
          · rw [entryApp_cons_ne env k x v e (Ne.symm hxk),
                if_neg hxk]
            have hite : (if x ∈ F ++ [k] then g x else []) =
                (if x ∈ F then g x else []) := by
              by_cases hxF : x ∈ F
              · rw [if_pos hxF, if_pos (by simp [hxF])]
              · rw [if_neg hxF, if_neg (by simp [hxF, hxk])]
            rw [hite]

/-- The entries loop started from the empty association list produces one
entry per non-datetime key of the row, in entry order, each holding the
singleton of the row's coerced value. -/
theorem valsFold_from_empty (env : JsEnv) (e : Row) (he : (rowKeys e).Nodup) :
    valsFold env e [] =
      ((rowKeys e).filter (fun k => decide (k ≠ "datetime"))).map
        (fun k => (k, [valueAt env e k])) := by
  have h := valsFold_map env e [] (fun _ => ([] : List ℚ)) (by simp) he
  simp only [List.map_nil, List.nil_append] at h
  rw [h]
  have hfe : (rowKeys e).filter
        (fun k => decide (k ≠ "datetime") && decide (k ∉ ([] : List String))) =
      (rowKeys e).filter (fun k => decide (k ≠ "datetime")) := by
    apply List.filter_congr
    intro x _
    simp
  rw [hfe]
  apply List.map_congr_left
  intro x hx
  have hxk : x ∈ rowKeys e := (List.mem_filter.mp hx).1
  have hxd : x ≠ "datetime" := by
    simpa using (List.mem_filter.mp hx).2
  obtain ⟨v, hv⟩ := rlookup_mem e x hxk
  simp [entryApp, hv, hxd, valueAt]

/-- The entries loop started from an association list that already holds
every non-datetime key of the row appends exactly the row's coerced value to
each key's sequence. -/
theorem valsFold_full (env : JsEnv) (e : Row) (K : List String)
    (g : String → List ℚ) (hK : rowKeys e = K) (hnd : K.Nodup) :
    valsFold env e
        ((K.filter (fun k => decide (k ≠ "datetime"))).map (fun x => (x, g x))) =
      (K.filter (fun k => decide (k ≠ "datetime"))).map
        (fun x => (x, g x ++ [valueAt env e x])) := by
  subst hK
  have hFnd : ((rowKeys e).filter (fun k => decide (k ≠ "datetime"))).Nodup :=
    hnd.filter _
  have h := valsFold_map env e
    ((rowKeys e).filter (fun k => decide (k ≠ "datetime"))) g hFnd hnd
  have hnew : (rowKeys e).filter
      (fun k => decide (k ≠ "datetime") &&
        decide (k ∉ (rowKeys e).filter (fun x => decide (x ≠ "datetime")))) = [] := by
    rw [List.filter_eq_nil_iff]
    intro k hk
    by_cases hkd : k = "datetime"
    · simp [hkd]
    · simp [hk, hkd]
  rw [h, hnew, List.append_nil]
  apply List.map_congr_left
  intro x hx
  have hxk : x ∈ rowKeys e := (List.mem_filter.mp hx).1
  have hxd : x ≠ "datetime" := by
    simpa using (List.mem_filter.mp hx).2
  obtain ⟨v, hv⟩ := rlookup_mem e x hxk
  rw [if_pos hx]
  simp [entryApp, hv, hxd, valueAt]

/-- A row with an absent or falsy `datetime` field leaves the normalization
state untouched. -/
theorem rowStep_skip (env : JsEnv) (st : NormState) (r : Row)
    (h : truthyOpt (rlookup r "datetime") = false) :
    rowStep env st r = st := by
  cases hr : rlookup r "datetime" with
  | none => simp [rowStep, hr]
  | some dv =>
      have hdv : truthy dv = false := by
        simpa [truthyOpt, hr] using h
      simp [rowStep, hr, hdv]

/-- A row with a truthy `datetime` pushes its (possibly invalid) parsed time
and folds its entries into the channel sequences. -/
theorem rowStep_keep (env : JsEnv) (ts : List (Option Int))
    (vals : List (String × List ℚ)) (r : Row) (dv : JsVal)
    (hdv : rlookup r "datetime" = some dv) (ht : truthy dv = true) :
    rowStep env ⟨ts, vals⟩ r = ⟨ts ++ [timeOf env r], valsFold env r vals⟩ := by
  simp [rowStep, hdv, ht, timeOf]

/-- A truthy row has a witness for its `datetime` lookup. -/
theorem truthy_dt_lookup (r : Row)
    (h : truthyOpt (rlookup r "datetime") = true) :
    ∃ dv, rlookup r "datetime" = some dv ∧ truthy dv = true := by
  cases hr : rlookup r "datetime" with
  | none => simp [truthyOpt, hr] at h
  | some dv => exact ⟨dv, rfl, by simpa [truthyOpt, hr] using h⟩

/-- Invariant of the outer row loop: over rows that all share key list `K`
and carry a truthy `datetime`, the state grows by one time per row and one
coerced value per row on every non-datetime key of `K`. -/
theorem normalize_go (env : JsEnv) (K : List String) (hnd : K.Nodup) :
    ∀ (rows : List Row) (ts : List (Option Int)) (g : String → List ℚ),
      (∀ r ∈ rows, rowKeys r = K ∧ truthyOpt (rlookup r "datetime") = true) →
      List.foldl (rowStep env)
          ⟨ts, (K.filter (fun k => decide (k ≠ "datetime"))).map
            (fun x => (x, g x))⟩ rows =
        ⟨ts ++ rows.map (timeOf env),
         (K.filter (fun k => decide (k ≠ "datetime"))).map
           (fun x => (x, g x ++ rows.map (fun r => valueAt env r x)))⟩ := by
  intro rows
  induction rows with
  | nil =>
      intro ts g _
      simp
  | cons r rows ih =>
      intro ts g hall
      have hr := hall r (List.mem_cons_self r rows)
      obtain ⟨dv, hdv, htv⟩ := truthy_dt_lookup r hr.2
      rw [List.foldl_cons, rowStep_keep env ts _ r dv hdv htv,
          valsFold_full env r K g hr.1 hnd]
      refine (ih (ts ++ [timeOf env r]) (fun x => g x ++ [valueAt env r x])
        (fun r' hr' => hall r' (List.mem_cons_of_mem _ hr'))).trans ?_
      simp only [NormState.mk.injEq]
      constructor
      · simp
      · apply List.map_congr_left
        intro x _
        simp

/-- The regular-filter predicate is the boolean negation of the streaming one. -/
theorem isRegularTarget_not (r : Query) :
    isRegularTarget r = !isStreamingMetrics r := by
  cases h1 : obTruthy r.isStreaming <;>
    cases h2 : decide (r.queryType = QueryType.metrics) <;>
    simp [isRegularTarget, isStreamingMetrics, h1, h2]

/-- Claim C1: the dispatcher's partition of a batch into streaming and regular
sets is total, disjoint and exhaustive: a query is in the streaming set iff
`isStreaming` is truthy and the query type is Metrics, every other query
(including a streaming-flagged non-Metrics one) is in the regular set, the two
sets are disjoint, and together they are a permutation of the input batch, so
every input query lands in exactly one of the two sets. -/
theorem claimC1_partition (ts : List Query) (q : Query) :
    (q ∈ streamingTargets ts ↔
      q ∈ ts ∧ obTruthy q.isStreaming = true ∧ q.queryType = QueryType.metrics) ∧
    (q ∈ regularTargets ts ↔
      q ∈ ts ∧ ¬(obTruthy q.isStreaming = true ∧ q.queryType = QueryType.metrics)) ∧
    ¬(q ∈ streamingTargets ts ∧ q ∈ regularTargets ts) ∧
    List.Perm (streamingTargets ts ++ regularTargets ts) ts := by
  have hs : q ∈ streamingTargets ts ↔
      q ∈ ts ∧ obTruthy q.isStreaming = true ∧ q.queryType = QueryType.metrics := by
    simp [streamingTargets, List.mem_filter, isStreamingMetrics,
          Bool.and_eq_true, decide_eq_true_eq]
  have hr : q ∈ regularTargets ts ↔
      q ∈ ts ∧ ¬(obTruthy q.isStreaming = true ∧ q.queryType = QueryType.metrics) := by
    rw [regularTargets, List.mem_filter, isRegularTarget_not q]
    simp only [Bool.not_eq_true', ← Bool.not_eq_true]
    constructor
    · rintro ⟨hmem, hpred⟩
      refine ⟨hmem, fun hc => hpred ?_⟩
      simp [isStreamingMetrics, hc.1, hc.2]
    · rintro ⟨hmem, hnc⟩
      refine ⟨hmem, fun hp => hnc ?_⟩
      simpa [isStreamingMetrics, Bool.and_eq_true, decide_eq_true_eq] using hp
  refine ⟨hs, hr, ?_, ?_⟩
  · rintro ⟨h1, h2⟩
    exact (hr.mp h2).2 (hs.mp h1).2
  · have hfil : regularTargets ts = ts.filter (fun r => !isStreamingMetrics r) :=
      List.filter_congr (fun r _ => isRegularTarget_not r)
    rw [hfil]
    exact List.filter_append_perm isStreamingMetrics ts

/-- Witness for C1 at the spec's edge case: a `{isStreaming: true,
queryType: Raw}` query lands in the regular set and not the streaming set. -/
theorem claimC1_partition_witness :
    qRawStream ∈ regularTargets [qRawStream] ∧
    qRawStream ∉ streamingTargets [qRawStream] := by
  have h := claimC1_partition [qRawStream] qRawStream
  refine ⟨h.2.1.mpr ⟨by simp, fun hc => ?_⟩, fun hmem => ?_⟩
  · exact (by decide : qRawStream.queryType ≠ QueryType.metrics) hc.2
  · exact (by decide : qRawStream.queryType ≠ QueryType.metrics) (h.1.mp hmem).2.2

/-- Claim C2: the bucket-size selection is a pure total function of the range
in hours, its result is always one of the eight fixed buckets, it is chosen by
descending strict thresholds with first match winning, and a range of exactly
48 hours selects avg = 300. -/
theorem claimC2_resolution_selector (h : ℚ) :
    sensorHistoryAvg h ∈ ["0", "120", "300", "600", "900", "1800", "3600", "86400"] ∧
    (720 < h → sensorHistoryAvg h = "86400") ∧
    (336 < h ∧ h ≤ 720 → sensorHistoryAvg h = "3600") ∧
    (168 < h ∧ h ≤ 336 → sensorHistoryAvg h = "1800") ∧
    (72 < h ∧ h ≤ 168 → sensorHistoryAvg h = "900") ∧
    (48 < h ∧ h ≤ 72 → sensorHistoryAvg h = "600") ∧
    (24 < h ∧ h ≤ 48 → sensorHistoryAvg h = "300") ∧
    (12 < h ∧ h ≤ 24 → sensorHistoryAvg h = "120") ∧
    (h ≤ 12 → sensorHistoryAvg h = "0") ∧
    sensorHistoryAvg 48 = "300" := by
  refine ⟨?_, ?_, ?_, ?_, ?_, ?_, ?_, ?_, ?_, by decide⟩
  · unfold sensorHistoryAvg
    split_ifs <;> simp
  · intro hh
    unfold sensorHistoryAvg
    split_ifs <;> first | rfl | (exfalso; linarith)
  · rintro ⟨hh1, hh2⟩
    unfold sensorHistoryAvg
    split_ifs <;> first | rfl | (exfalso; linarith)
  · rintro ⟨hh1, hh2⟩
    unfold sensorHistoryAvg
    split_ifs <;> first | rfl | (exfalso; linarith)
  · rintro ⟨hh1, hh2⟩
    unfold sensorHistoryAvg
    split_ifs <;> first | rfl | (exfalso; linarith)
  · rintro ⟨hh1, hh2⟩
    unfold sensorHistoryAvg
    split_ifs <;> first | rfl | (exfalso; linarith)
  · rintro ⟨hh1, hh2⟩
    unfold sensorHistoryAvg
    split_ifs <;> first | rfl | (exfalso; linarith)
  · rintro ⟨hh1, hh2⟩
    unfold sensorHistoryAvg
    split_ifs <;> first | rfl | (exfalso; linarith)
  · intro hh
    unfold sensorHistoryAvg
    split_ifs <;> first | rfl | (exfalso; linarith)

/-- Witness for C2 at the end-to-end scenario input: 48 hours satisfies the
`>24` band hypothesis and the selector yields "300". -/
theorem claimC2_resolution_selector_witness :
    (24 < (48 : ℚ) ∧ (48 : ℚ) ≤ 48) ∧ sensorHistoryAvg 48 = "300" :=
  ⟨⟨by norm_num, le_refl 48⟩,
   (claimC2_resolution_selector 48).2.2.2.2.2.2.1 ⟨by norm_num, le_refl 48⟩⟩

/-- Counterexample to C3 as stated: a range of exactly 24 hours selects
bucket "120" (the `>12` band), not "0" as the claim asserts. -/
theorem claimC3_counterexample :
    sensorHistoryAvg 24 = "120" ∧ sensorHistoryAvg 24 ≠ "0" := by
  constructor <;> decide

/-- Claim C3 (amended): because every comparison is strict, each exact
threshold boundary falls through to the next lower band: 12 yields "0",
24 yields "120" (not "300", and not "0"), 48 yields "300", 72 yields "600",
168 yields "900", 336 yields "1800", 720 yields "3600"; and 24.0001 yields
"300". -/
theorem claimC3_boundaries :
    sensorHistoryAvg 12 = "0" ∧ sensorHistoryAvg 24 = "120" ∧
    sensorHistoryAvg 48 = "300" ∧ sensorHistoryAvg 72 = "600" ∧
    sensorHistoryAvg 168 = "900" ∧ sensorHistoryAvg 336 = "1800" ∧
    sensorHistoryAvg 720 = "3600" ∧
    sensorHistoryAvg (240001 / 10000) = "300" := by
  refine ⟨by decide, by decide, by decide, by decide, by decide, by decide,
          by decide, ?_⟩
  unfold sensorHistoryAvg
  norm_num

/-- Claim C9: the avg-threshold computation inside the sensor-history fetch
and the one inside the annotation fetch are extensionally equal: for every
hours value they produce the same avg bucket string. -/
theorem claimC9_avg_call_sites_agree : ∀ h : ℚ, sensorHistoryAvg h = annotAvg h :=
  fun _ => rfl

/-- Claim C10: for every decoded history body, the extraction returns the
`channels` array when that field is present (hence truthy), otherwise the
`histdata` array when present, otherwise the empty array; `channels` takes
precedence and the result is a genuine array in every case. -/
theorem claimC10_hist_extraction (b : HistBody) :
    (∀ r, b.channels = JField.arr r → extractHistRows b = r) ∧
    (fieldTruthy b.channels = false →
      ∀ r, b.histdata = JField.arr r → extractHistRows b = r) ∧
    (fieldTruthy b.channels = false → fieldTruthy b.histdata = false →
      extractHistRows b = []) := by
  obtain ⟨c, hd⟩ := b
  refine ⟨?_, ?_, ?_⟩ <;>
    cases c <;> cases hd <;> simp [extractHistRows, fieldTruthy]

/-- Witness for C10: precedence of `channels`, fallback to `histdata`, and
the empty default, each at a concrete body. -/
theorem claimC10_hist_extraction_witness :
    extractHistRows ⟨JField.arr [rowT1], JField.arr [rowT2]⟩ = [rowT1] ∧
    extractHistRows ⟨JField.jnull, JField.arr [rowT2]⟩ = [rowT2] ∧
    extractHistRows ⟨JField.absent, JField.jnull⟩ = [] :=
  ⟨(claimC10_hist_extraction ⟨JField.arr [rowT1], JField.arr [rowT2]⟩).1 [rowT1] rfl,
   (claimC10_hist_extraction ⟨JField.jnull, JField.arr [rowT2]⟩).2.1 rfl [rowT2] rfl,
   (claimC10_hist_extraction ⟨JField.absent, JField.jnull⟩).2.2 rfl rfl⟩

/-- Claim C6: stream identifier derivation is deterministic — it is a pure
function of (panelId, refId, sensorId, channelArray-or-channel), so two calls
with identical inputs yield the identical string — the components are joined
with the "_" separator with empty components omitted, and an undefined
panelId substitutes the literal "default" component rather than failing. -/
theorem claimC6_stream_id :
    (∀ q₁ q₂ : Query, q₁.panelId = q₂.panelId → q₁.refId = q₂.refId →
      q₁.sensorId = q₂.sensorId → q₁.channelArray = q₂.channelArray →
      q₁.channel = q₂.channel → getStreamId q₁ = getStreamId q₂) ∧
    (∀ q : Query, getStreamId q =
      String.intercalate "_"
        ((streamComponents q).filter (fun s => decide (s ≠ "")))) ∧
    (∀ q : Query, q.panelId = none →
      (streamComponents q).head? = some "default") := by
  refine ⟨?_, fun q => rfl, ?_⟩
  · intro q₁ q₂ h1 h2 h3 h4 h5
    simp only [getStreamId, streamComponents, h1, h2, h3, h4, h5]
  · intro q hq
    simp [streamComponents, jsOrOpt, hq]

/-- Witness for C6: the spec's example inputs (panelId "1", refId "A",
sensorId "42", channelArray ["ch1"]) derive the same id even when an
unrelated field differs, that id is "1_A_42_ch1", and leaving panelId
undefined substitutes "default". -/
theorem claimC6_stream_id_witness :
    getStreamId qW1 = getStreamId qW2 ∧
    getStreamId qW1 = "1_A_42_ch1" ∧
    (streamComponents qWnone).head? = some "default" :=
  ⟨claimC6_stream_id.1 qW1 qW2 rfl rfl rfl rfl rfl,
   (claimC6_stream_id.2.1 qW1).trans (by decide),
   claimC6_stream_id.2.2 qWnone rfl⟩

/-- Counterexample to C8 as stated: a frame arriving without a `meta` object
is forwarded unmodified — no streaming flag, stream identifier or
visualization hint is attached to it. -/
theorem claimC8_counterexample :
    tagStreamData "sid" (some [some frameNoMeta]) = [some frameNoMeta] ∧
    frameNoMeta.meta = none := by
  constructor <;> rfl

/-- Claim C8 (amended): the stream pipe maps the tagging body over every
frame of `response.data || []`; every non-null frame that already carries a
`meta` object is forwarded with `streaming = true`, the derived stream
identifier and `preferredVisualisationType = "graph"` spliced into its
metadata (other metadata preserved), while null frames and frames without a
`meta` object are forwarded unchanged. -/
theorem claimC8_frame_tagging (sid : String) :
    (∀ d, tagStreamData sid (some d) = d.map (tagFrame sid)) ∧
    tagStreamData sid none = [] ∧
    (∀ m r, tagFrame sid (some ⟨some m, r⟩) =
      some ⟨some ⟨some true, some sid, some "graph", m.rest⟩, r⟩) ∧
    (∀ r, tagFrame sid (some ⟨none, r⟩) = some ⟨none, r⟩) ∧
    tagFrame sid none = none :=
  ⟨fun _ => rfl, rfl, fun _ _ => rfl, fun _ => rfl, rfl⟩

/-- Counterexample to C4 as stated: with heterogeneous per-row key sets
(`ch2` present only in the second row) the produced Series do NOT all share
an identical length — `ch1` has two samples and `ch2` has one. -/
theorem claimC4_counterexample :
    ¬ (∀ p ∈ (normalize envC rowsHet).values,
        ∀ p' ∈ (normalize envC rowsHet).values,
          p.2.length = p'.2.length) := by
  decide

/-- Claim C4 (amended): when every row of the response shares an identical
key list containing a truthy timestamp, normalization yields one Series per
distinct non-datetime key, each of length equal to the row count, with values
in row order, all aligned to the shared timestamp axis (which every built
frame carries verbatim); with heterogeneous keys the value sequences of
late-appearing keys are shorter than the axis. -/
theorem claimC4_normalizer (env : JsEnv) (K : List String) (rows : List Row)
    (hnd : K.Nodup) (hne : rows ≠ [])
    (hall : ∀ r ∈ rows, rowKeys r = K ∧ truthyOpt (rlookup r "datetime") = true) :
    (normalize env rows).times = rows.map (timeOf env) ∧
    (normalize env rows).values =
      (K.filter (fun k => decide (k ≠ "datetime"))).map
        (fun k => (k, rows.map (fun r => valueAt env r k))) ∧
    (normalize env rows).times.length = rows.length ∧
    (∀ p ∈ (normalize env rows).values, p.2.length = rows.length) ∧
    (∀ t : Query, ∀ f ∈ buildFrames t (normalize env rows),
      f.times = (normalize env rows).times) := by
  obtain ⟨r, rest, rfl⟩ := List.exists_cons_of_ne_nil hne
  have hr := hall r (List.mem_cons_self r rest)
  obtain ⟨dv, hdv, htv⟩ := truthy_dt_lookup r hr.2
  have hmain : normalize env (r :: rest) =
      ⟨(r :: rest).map (timeOf env),
       (K.filter (fun k => decide (k ≠ "datetime"))).map
         (fun k => (k, (r :: rest).map (fun r' => valueAt env r' k)))⟩ := by
    unfold normalize
    rw [List.foldl_cons, rowStep_keep env [] [] r dv hdv htv,
        valsFold_from_empty env r (hr.1 ▸ hnd), hr.1]
    refine (normalize_go env K hnd rest [timeOf env r]
      (fun k => [valueAt env r k])
      (fun r' hr' => hall r' (List.mem_cons_of_mem _ hr'))).trans ?_
    simp only [NormState.mk.injEq]
    constructor
    · simp
    · apply List.map_congr_left
      intro x _
      simp
  refine ⟨by rw [hmain], by rw [hmain], ?_, ?_, ?_⟩
  · rw [hmain]
    simp
  · intro p hp
    rw [hmain] at hp
    simp only [List.mem_map] at hp
    obtain ⟨k, _, rfl⟩ := hp
    simp
  · intro t f hf
    simp only [buildFrames, List.mem_map] at hf
    obtain ⟨p, _, rfl⟩ := hf
    rfl

/-- Witness for C4 at a concrete homogeneous input: two rows with key list
["datetime", "ch1"] yield the two-point axis and one two-sample Series. -/
theorem claimC4_normalizer_witness :
    (normalize envC rowsHom).times = [some 1, some 2] ∧
    (normalize envC rowsHom).values = [("ch1", [1, 2])] := by
  have h := claimC4_normalizer envC ["datetime", "ch1"] rowsHom
    (by decide) (by decide) (by decide)
  exact ⟨h.1.trans (by decide), h.2.1.trans (by decide)⟩

/-- Counterexample to C5 as stated: a row whose timestamp is present and
truthy but unparsable (`new Date` yields an invalid date) is NOT skipped —
it contributes an invalid entry to the time axis and its samples to the
Series. -/
theorem claimC5_counterexample :
    envC.dateMs (JsVal.str "garbage") = none ∧
    normalize envC [rowBad] = ⟨[none], [("ch1", [5])]⟩ ∧
    (normalize envC [rowBad]).times ≠ [] := by
  refine ⟨rfl, by decide, by decide⟩

/-- Claim C5 (amended): a row whose timestamp field is absent or falsy is
skipped entirely and silently — it leaves the state untouched, is excluded
from the shared time axis, contributes no samples to any Series, and the rest
of the normalization proceeds as if the row were not there; a row with a
truthy but unparsable timestamp is, however, kept, contributing an invalid
time entry. -/
theorem claimC5_skip (env : JsEnv) (st : NormState) (r : Row)
    (h : truthyOpt (rlookup r "datetime") = false) :
    rowStep env st r = st ∧
    ∀ pre post : List Row,
      normalize env (pre ++ r :: post) = normalize env (pre ++ post) := by
  refine ⟨rowStep_skip env st r h, ?_⟩
  intro pre post
  unfold normalize
  rw [List.foldl_append, List.foldl_append, List.foldl_cons,
      rowStep_skip env _ r h]

/-- Witness for C5: a row lacking the datetime key leaves the state alone,
and dropping it from the middle of a row sequence changes nothing. -/
theorem claimC5_skip_witness :
    rowStep envC ⟨[], []⟩ rowNoDt = ⟨[], []⟩ ∧
    normalize envC ([rowT1] ++ rowNoDt :: [rowT2]) =
      normalize envC ([rowT1] ++ [rowT2]) := by
  have h := claimC5_skip envC ⟨[], []⟩ rowNoDt (by decide)
  exact ⟨h.1, h.2 [rowT1] [rowT2]⟩

/-- Claim C7: in the regular-path batch each entry is the independent
resolution of its own query — a query whose fetch fails resolves to an empty
response tagged with that query's refId alone, and the entry of any other
query is unchanged under any variation of the failing fetch, so the remaining
queries still contribute their series. -/
theorem claimC7_regular_isolation (env : JsEnv)
    (fetch fetch' : Query → Except String (List Row)) (ts : List Query)
    (i j : Nat) (hi : i < ts.length) (hj : j < ts.length) (e : String)
    (hfail : fetch (ts.get ⟨i, hi⟩) = .error e)
    (hagree : fetch (ts.get ⟨j, hj⟩) = fetch' (ts.get ⟨j, hj⟩)) :
    (regularResults env fetch ts).get
        ⟨i, by simpa [regularResults] using hi⟩ =
      ⟨(ts.get ⟨i, hi⟩).refId, []⟩ ∧
    (regularResults env fetch ts).get
        ⟨j, by simpa [regularResults] using hj⟩ =
      (regularResults env fetch' ts).get
        ⟨j, by simpa [regularResults] using hj⟩ := by
  have hmap : ∀ (f : Query → Except String (List Row)) (k : Nat)
      (hk : k < ts.length),
      (regularResults env f ts).get ⟨k, by simpa [regularResults] using hk⟩ =
        resolveOne env f (ts.get ⟨k, hk⟩) := by
    intro f k hk
    simp [regularResults, List.get_eq_getElem, List.getElem_map]
  rw [hmap fetch i hi, hmap fetch j hj, hmap fetch' j hj]
  constructor
  · unfold resolveOne
    rw [hfail]
    split <;> rfl
  · unfold resolveOne
    rw [hagree]

/-- Witness for C7: with a fetch stub failing for refId "A" and succeeding
for refId "B", the batch [qA, qB] yields an empty result tagged "A" at
position 0, while position 1 is independent of that failure. -/
theorem claimC7_regular_isolation_witness :
    fetchW qA = .error "boom" ∧
    (regularResults envC fetchW [qA, qB]).get ⟨0, by simp [regularResults]⟩ =
      ⟨"A", []⟩ ∧
    (regularResults envC fetchW [qA, qB]).get ⟨1, by simp [regularResults]⟩ =
      (regularResults envC fetchW [qA, qB]).get
        ⟨1, by simp [regularResults]⟩ := by
  have h := claimC7_regular_isolation envC fetchW fetchW [qA, qB] 0 1
    (by norm_num) (by norm_num) "boom" rfl rfl
  exact ⟨rfl, h.1, h.2⟩

end PrtgSpec
